import Mathlib

/-!
Shallow embedding of the simple-http-server repository's dynamic routing core:
the proxy rule store (internal/config), the proxy manager with its lazy proxy
cache (internal/proxy), the shared-endpoint router and port-based proxy startup
(main.go), the administrative rule API (internal/admin), the filesystem-event
debounce loop (internal/fileserver watchFiles) and the change broadcast hub
(internal/fileserver BroadcastChange).

Go machine details that matter here: strings are modelled by Lean `String`,
Go `int` by `Int`, Go maps and channels by association lists and bounded list
queues. `url.Parse` failure is modelled by its control-byte rejection
(net/url stringContainsCTLByte), the failure mode relevant to malformed
target URLs.
-/

/-- config.ProxyRule (internal/config): one reverse proxy rule. -/
structure ProxyRule where
  ID : String
  PathPrefix : String
  Port : Int
  TargetURL : String
  StripPrefix : Bool
deriving Repr, DecidableEq

/-- Config.AddProxyRule: append the rule to the stored slice. -/
def AddProxyRule (rules : List ProxyRule) (rule : ProxyRule) : List ProxyRule :=
  rules ++ [rule]

/-- Config.UpdateProxyRule: replace the first stored rule whose ID matches,
forcing the stored rule's ID back to the requested id; report whether a rule
was found. The stored list is untouched when no rule matches. -/
def UpdateProxyRule : List ProxyRule → String → ProxyRule → Bool × List ProxyRule
  | [], _, _ => (false, [])
  | r :: rs, id, rule =>
    if r.ID = id then
      (true, { rule with ID := id } :: rs)
    else
      let p := UpdateProxyRule rs id rule
      (p.1, r :: p.2)

/-- Config.DeleteProxyRule: remove the first stored rule whose ID matches;
report whether a rule was found. -/
def DeleteProxyRule : List ProxyRule → String → Bool × List ProxyRule
  | [], _ => (false, [])
  | r :: rs, id =>
    if r.ID = id then
      (true, rs)
    else
      let p := DeleteProxyRule rs id
      (p.1, r :: p.2)

/-- strings.HasPrefix, computed structurally over the characters. -/
def hasPre (pre s : String) : Bool :=
  pre.toList.isPrefixOf s.toList

/-- net/url rejects any URL containing an ASCII control byte
(stringContainsCTLByte: b < 0x20 or b = 0x7f); this models url.Parse failure
on a malformed target URL. -/
def containsCTLByte (s : String) : Bool :=
  s.toList.any (fun c => c.toNat < 0x20 || c.toNat == 0x7f)

/-- The proxy cache (ProxyManager.proxies): rule ID to the target URL the
cached reverse proxy was constructed from. -/
abbrev ProxyCache : Type := List (String × String)

/-- Go map read pm.proxies[rule.ID]. -/
def lookupProxy : ProxyCache → String → Option String
  | [], _ => none
  | e :: rest, id => if e.1 = id then some e.2 else lookupProxy rest id

/-- ProxyManager.getOrCreateProxy: return the cached proxy for the rule's ID,
or construct one from the rule's target URL; a parse failure returns no proxy
and leaves the cache unchanged. -/
def getOrCreateProxy (proxies : ProxyCache) (rule : ProxyRule) :
    Option String × ProxyCache :=
  match lookupProxy proxies rule.ID with
  | some t => (some t, proxies)
  | none =>
    if containsCTLByte rule.TargetURL then
      (none, proxies)
    else
      (some rule.TargetURL, proxies ++ [(rule.ID, rule.TargetURL)])

/-- Outcome of ProxyManager request handling: a request forwarded to a target
URL with a forwarded path, or an http.Error response with a status code. -/
inductive ProxyResult where
  | proxied (target : String) (path : String)
  | errorResponse (status : Nat)
deriving Repr, DecidableEq

/-- strings.TrimPrefix. -/
def trimPre (s pre : String) : String :=
  if hasPre pre s then String.mk (s.toList.drop pre.toList.length) else s

/-- The forwarded path computed inside ProxyManager.ServeHTTP: when the rule
has StripPrefix, drop the matched prefix and fall back to "/" when the path
becomes empty; otherwise keep the request path. -/
def forwardedPath (rule : ProxyRule) (path : String) : String :=
  if rule.StripPrefix then
    let p := trimPre path rule.PathPrefix
    if p = "" then "/" else p
  else path

/-- ProxyManager.ServeHTTP: scan the current rules in order; the first rule
whose PathPrefix is a string prefix of the request path is used (the empty
prefix matches every path); 404 when no rule matches. -/
def ServeHTTP : List ProxyRule → ProxyCache → String → ProxyResult × ProxyCache
  | [], proxies, _ => (.errorResponse 404, proxies)
  | rule :: rest, proxies, path =>
    if hasPre rule.PathPrefix path then
      match getOrCreateProxy proxies rule with
      | (none, ps) => (.errorResponse 500, ps)
      | (some t, ps) => (.proxied t (forwardedPath rule path), ps)
    else ServeHTTP rest proxies path

/-- ProxyManager.ServePortProxy: forward the request path unchanged to the
given rule's target. -/
def ServePortProxy (proxies : ProxyCache) (path : String) (rule : ProxyRule) :
    ProxyResult × ProxyCache :=
  match getOrCreateProxy proxies rule with
  | (none, ps) => (.errorResponse 500, ps)
  | (some t, ps) => (.proxied t path, ps)

/-- ProxyManager.RefreshProxies: replace the cache by a fresh empty map. -/
def RefreshProxies (_ : ProxyCache) : ProxyCache := []

/-- Outcome of the shared-endpoint router in main.go: handled by the proxy
layer, or fallen through to the file server. -/
inductive DispatchResult where
  | proxy (res : ProxyResult)
  | fileServer
deriving Repr, DecidableEq

/-- The loop body of the root handler in main.go: scan for a rule with a
non-empty PathPrefix prefixing the request path; on the first hit hand the
request to ProxyManager.ServeHTTP (which rescans the full list without the
non-empty check); with no hit serve files. -/
def mainRoute (allRules : List ProxyRule) (proxies : ProxyCache) (path : String) :
    List ProxyRule → DispatchResult × ProxyCache
  | [] => (.fileServer, proxies)
  | rule :: rest =>
    if rule.PathPrefix != "" && hasPre rule.PathPrefix path then
      let r := ServeHTTP allRules proxies path
      (.proxy r.1, r.2)
    else mainRoute allRules proxies path rest

/-- The root handler registered on "/" in main.go. -/
def mainHandler (rules : List ProxyRule) (proxies : ProxyCache) (path : String) :
    DispatchResult × ProxyCache :=
  mainRoute rules proxies path rules

/-- Response of an admin API proxy-rule operation (internal/admin). -/
inductive AdminResult where
  | badRequest
  | notFound
  | ok (body : ProxyRule)
  | created (body : ProxyRule)
  | noContent
deriving Repr, DecidableEq

/-- Shared state touched by the admin handlers: the rule store and the proxy
cache. -/
structure ServerState where
  rules : List ProxyRule
  proxies : List (String × String)
deriving Repr, DecidableEq

/-- The admin handlers' PathPrefix normalization: a non-empty prefix is made
to start with "/". -/
def normalizePre (rule : ProxyRule) : ProxyRule :=
  if rule.PathPrefix != "" && !(hasPre "/" rule.PathPrefix) then
    { rule with PathPrefix := "/" ++ rule.PathPrefix }
  else rule

/-- Handler.addProxy: assign freshID when the decoded rule has no ID
(uuid.New().String() in Go), validate, normalize, store, refresh the proxy
cache, and respond 201 with the rule. -/
def addProxy (st : ServerState) (freshID : String) (rule : ProxyRule) :
    AdminResult × ServerState :=
  let rule := if rule.ID == "" then { rule with ID := freshID } else rule
  if rule.PathPrefix == "" && rule.Port == 0 then
    (.badRequest, st)
  else if rule.TargetURL == "" then
    (.badRequest, st)
  else
    let rule := normalizePre rule
    (.created rule,
     { rules := AddProxyRule st.rules rule, proxies := RefreshProxies st.proxies })

/-- Handler.updateProxy: validate, normalize, update the store under the path
identifier, refresh the cache on success, and respond with the decoded rule;
404 when the identifier is unknown. -/
def updateProxy (st : ServerState) (id : String) (rule : ProxyRule) :
    AdminResult × ServerState :=
  if rule.PathPrefix == "" && rule.Port == 0 then
    (.badRequest, st)
  else if rule.TargetURL == "" then
    (.badRequest, st)
  else
    let rule := normalizePre rule
    let p := UpdateProxyRule st.rules id rule
    if p.1 then
      (.ok rule, { rules := p.2, proxies := RefreshProxies st.proxies })
    else
      (.notFound, st)

/-- Handler.deleteProxy: delete by identifier, refresh the cache on success;
404 when the identifier is unknown. -/
def deleteProxy (st : ServerState) (id : String) : AdminResult × ServerState :=
  let p := DeleteProxyRule st.rules id
  if p.1 then
    (.noContent, { rules := p.2, proxies := RefreshProxies st.proxies })
  else
    (.notFound, st)

/-- One administrative mutation of the rule store. -/
inductive AdminOp where
  | add (freshID : String) (rule : ProxyRule)
  | update (id : String) (rule : ProxyRule)
  | del (id : String)

/-- Dispatch of the admin API's mutating endpoints. -/
def adminExec (st : ServerState) : AdminOp → AdminResult × ServerState
  | .add freshID rule => addProxy st freshID rule
  | .update id rule => updateProxy st id rule
  | .del id => deleteProxy st id

/-- Whether an admin response reports a completed mutation (201, 200, 204). -/
def isMutationSuccess : AdminResult → Bool
  | .created _ => true
  | .ok _ => true
  | .noContent => true
  | _ => false

/-- startPortBasedProxies (main.go): one dedicated listener per rule with a
positive Port, its handler closing over that rule. It runs once, over the rule
list current at process startup. -/
def startPortBasedProxies (rules : List ProxyRule) : List (Int × ProxyRule) :=
  (rules.filter (fun r => decide (0 < r.Port))).map (fun r => (r.Port, r))

/-- Whole-process state relevant to port-based proxying: the rule store, the
proxy cache, and the dedicated port listeners. -/
structure ProcessState where
  rules : List ProxyRule
  proxies : List (String × String)
  listeners : List (Int × ProxyRule)
deriving Repr, DecidableEq

/-- Process startup in main.go: the global config starts with an empty
ProxyRules slice, and startPortBasedProxies runs once over that snapshot. -/
def startupState : ProcessState :=
  { rules := [], proxies := [], listeners := startPortBasedProxies [] }

/-- An administrative mutation on the running process: it touches the rule
store and the proxy cache but never starts or stops a port listener (no admin
handler calls startPortBasedProxies). -/
def processAdmin (ps : ProcessState) (op : AdminOp) : AdminResult × ProcessState :=
  let r := adminExec { rules := ps.rules, proxies := ps.proxies } op
  (r.1, { rules := r.2.rules, proxies := r.2.proxies, listeners := ps.listeners })

/-- fsnotify.Op modelled by its flag bits. -/
structure FsOp where
  Create : Bool
  Write : Bool
  Remove : Bool
  Rename : Bool
  Chmod : Bool
deriving Repr, DecidableEq

/-- fsnotify.Event: full path plus operation. -/
structure FsEvent where
  Name : String
  Op : FsOp
deriving Repr, DecidableEq

/-- Event classification inside the debounce callback of watchFiles: created
first, then removed, then renamed, defaulting to modified. -/
def eventType (op : FsOp) : String :=
  if op.Create then "created"
  else if op.Remove then "removed"
  else if op.Rename then "renamed"
  else "modified"

/-- path/filepath.Base on slash-separated paths: empty input gives ".",
trailing separators are stripped, the last component is kept, and an
all-separator path gives "/". -/
def filepathBase (path : String) : String :=
  if path = "" then "."
  else
    let stripped := (path.toList.reverse.dropWhile (fun c => c == '/')).reverse
    let last := (stripped.reverse.takeWhile (fun c => c != '/')).reverse
    if last = [] then "/" else String.mk last

/-- The coalesced notification text built in watchFiles: base file name,
a space, and the classified kind. -/
def eventMessage (e : FsEvent) : String :=
  filepathBase e.Name ++ " " ++ eventType e.Op

/-- The debounce duration in watchFiles (500 ms). -/
def debounceDurationMs : Nat := 500

/-- Timer semantics of the watch loop: each event (at its arrival time in ms)
arms a 500 ms timer whose callback emits that event's message; a later event
arriving while the timer is pending stops it. So an event's message is emitted
(at its arrival time + 500 ms) exactly when no later event arrives within the
debounce window. -/
def debounceEmits : List (Nat × FsEvent) → List (Nat × String)
  | [] => []
  | (t, e) :: rest =>
    match rest with
    | [] => [(t + debounceDurationMs, eventMessage e)]
    | (t2, _) :: _ =>
      if t2 < t + debounceDurationMs then debounceEmits rest
      else (t + debounceDurationMs, eventMessage e) :: debounceEmits rest

/-- A burst: consecutive events always within the 500 ms debounce window. -/
def isBurst : List (Nat × FsEvent) → Bool
  | [] => true
  | [_] => true
  | (t, _) :: (t2, e2) :: rest =>
    decide (t2 < t + debounceDurationMs) && isBurst ((t2, e2) :: rest)

/-- Capacity of each subscriber channel created in HandleSSE
(make(chan string, 10)). -/
def clientChanCapacity : Nat := 10

/-- The non-blocking send in BroadcastChange (select with default): enqueue
when the bounded channel has room, otherwise skip that subscriber. -/
def trySend (q : List String) (msg : String) : List String :=
  if q.length < clientChanCapacity then q ++ [msg] else q

/-- FileServer.BroadcastChange: non-blocking delivery of one message to every
registered subscriber queue. -/
def BroadcastChange (clients : List (List String)) (message : String) :
    List (List String) :=
  clients.map (fun q => trySend q message)

/-- Dispatch as claim C1 words it, stated from the spec for comparison with the
code's mainHandler: the selected rule is the first rule in the list whose path
prefix is a literal string prefix of the request path; none means the request
is not proxied. -/
def specFirstMatchRule (rules : List ProxyRule) (path : String) : Option ProxyRule :=
  rules.find? (fun r => hasPre r.PathPrefix path)

/- Concrete fixtures used by counterexamples and witnesses. -/

/-- A port-only rule with an empty path prefix. -/
def portRuleY : ProxyRule :=
  { ID := "r1", PathPrefix := "", Port := 9000, TargetURL := "http://y",
    StripPrefix := false }

/-- The body of a port-only rule submission (no ID yet). -/
def portRuleBody : ProxyRule :=
  { ID := "", PathPrefix := "", Port := 9000, TargetURL := "http://y",
    StripPrefix := false }

/-- Overlapping-prefix fixture, shorter prefix. -/
def ruleAp : ProxyRule :=
  { ID := "a", PathPrefix := "/ap", Port := 0, TargetURL := "http://a",
    StripPrefix := false }

/-- Overlapping-prefix fixture, longer prefix. -/
def ruleApi : ProxyRule :=
  { ID := "b", PathPrefix := "/api", Port := 0, TargetURL := "http://b",
    StripPrefix := false }

/-- The stale-cache fixture's stored rule before the update. -/
def oldRule : ProxyRule :=
  { ID := "r1", PathPrefix := "/api", Port := 0, TargetURL := "http://old",
    StripPrefix := false }

/-- The update body switching the target and the strip flag. -/
def newRuleBody : ProxyRule :=
  { ID := "", PathPrefix := "/api", Port := 0, TargetURL := "http://new",
    StripPrefix := true }

/-- A server state holding oldRule with its proxy already cached. -/
def staleState : ServerState :=
  { rules := [oldRule], proxies := [("r1", "http://old")] }

/-- The /api strip rule of the end-to-end scenario. -/
def ruleApiStrip : ProxyRule :=
  { ID := "x1", PathPrefix := "/api", Port := 0, TargetURL := "http://x",
    StripPrefix := true }

/-- A rule whose target URL contains a control byte, so url.Parse fails. -/
def ruleBadTarget : ProxyRule :=
  { ID := "m1", PathPrefix := "/api", Port := 0, TargetURL := "http://x\n",
    StripPrefix := false }

/-- The last event of the burst fixture: a write to /d/c.txt. -/
def cEvent : FsEvent :=
  { Name := "/d/c.txt",
    Op := { Create := false, Write := true, Remove := false, Rename := false,
            Chmod := false } }

/-- A burst of three events on distinct files, 100-300 ms apart. -/
def burstEvents : List (Nat × FsEvent) :=
  [(0, { Name := "/d/a.txt",
         Op := { Create := true, Write := false, Remove := false,
                 Rename := false, Chmod := false } }),
   (100, { Name := "/d/b.txt",
           Op := { Create := false, Write := true, Remove := false,
                   Rename := false, Chmod := false } }),
   (300, cEvent)]

/-- A subscriber queue at capacity (10 queued messages). -/
def fullQueue : List String :=
  ["1", "2", "3", "4", "5", "6", "7", "8", "9", "10"]

/-- An update body whose ID field differs from the path identifier r1. -/
def bodyDifferentID : ProxyRule :=
  { ID := "bodyid", PathPrefix := "/api", Port := 0, TargetURL := "http://new2",
    StripPrefix := false }

/-! Helper lemmas about the embedded operations. -/

theorem getOrCreateProxy_nil_ok (rule : ProxyRule)
    (hurl : containsCTLByte rule.TargetURL = false) :
    getOrCreateProxy [] rule = (some rule.TargetURL, [(rule.ID, rule.TargetURL)]) := by
  simp [getOrCreateProxy, lookupProxy, hurl]

theorem ServeHTTP_find_fail (rules : List ProxyRule) (proxies : ProxyCache)
    (path : String) (r₀ : ProxyRule)
    (h : rules.find? (fun r => hasPre r.PathPrefix path) = some r₀)
    (hfail : (getOrCreateProxy proxies r₀).1 = none) :
    ServeHTTP rules proxies path = (.errorResponse 500, (getOrCreateProxy proxies r₀).2) := by
  induction rules with
  | nil => simp at h
  | cons rule rest ih =>
    by_cases hm : hasPre rule.PathPrefix path = true
    · simp only [List.find?_cons, hm] at h
      obtain rfl : rule = r₀ := by injection h
      rcases hg : getOrCreateProxy proxies rule with ⟨o, ps⟩
      rw [hg] at hfail
      simp only at hfail
      subst hfail
      simp [ServeHTTP, hm, hg]
    · have hm' : hasPre rule.PathPrefix path = false := by simpa using hm
      simp only [List.find?_cons, hm'] at h
      simp only [ServeHTTP, hm', Bool.false_eq_true, if_false]
      exact ih h

theorem ServeHTTP_find_ok (rules : List ProxyRule) (proxies : ProxyCache)
    (path : String) (r₀ : ProxyRule) (t : String)
    (h : rules.find? (fun r => hasPre r.PathPrefix path) = some r₀)
    (hok : (getOrCreateProxy proxies r₀).1 = some t) :
    ServeHTTP rules proxies path =
      (.proxied t (forwardedPath r₀ path), (getOrCreateProxy proxies r₀).2) := by
  induction rules with
  | nil => simp at h
  | cons rule rest ih =>
    by_cases hm : hasPre rule.PathPrefix path = true
    · simp only [List.find?_cons, hm] at h
      obtain rfl : rule = r₀ := by injection h
      rcases hg : getOrCreateProxy proxies rule with ⟨o, ps⟩
      rw [hg] at hok
      simp only at hok
      subst hok
      simp [ServeHTTP, hm, hg]
    · have hm' : hasPre rule.PathPrefix path = false := by simpa using hm
      simp only [List.find?_cons, hm'] at h
      simp only [ServeHTTP, hm', Bool.false_eq_true, if_false]
      exact ih h

theorem ServeHTTP_nil_cache (rules : List ProxyRule) (path : String) (r₀ : ProxyRule)
    (h : rules.find? (fun r => hasPre r.PathPrefix path) = some r₀)
    (hurl : containsCTLByte r₀.TargetURL = false) :
    ServeHTTP rules [] path =
      (.proxied r₀.TargetURL (forwardedPath r₀ path), [(r₀.ID, r₀.TargetURL)]) := by
  have hg := getOrCreateProxy_nil_ok r₀ hurl
  have := ServeHTTP_find_ok rules [] path r₀ r₀.TargetURL h (by rw [hg])
  rw [this, hg]

theorem ServePortProxy_nil_cache (path : String) (rule : ProxyRule)
    (hurl : containsCTLByte rule.TargetURL = false) :
    ServePortProxy [] path rule =
      (.proxied rule.TargetURL path, [(rule.ID, rule.TargetURL)]) := by
  simp [ServePortProxy, getOrCreateProxy_nil_ok rule hurl]

theorem mainRoute_of_any_false (allRules : List ProxyRule) (proxies : ProxyCache)
    (path : String) (rem : List ProxyRule)
    (h : rem.any (fun r => r.PathPrefix != "" && hasPre r.PathPrefix path) = false) :
    mainRoute allRules proxies path rem = (.fileServer, proxies) := by
  induction rem with
  | nil => rfl
  | cons rule rest ih =>
    rw [List.any_cons, Bool.or_eq_false_iff] at h
    simp only [mainRoute, h.1, Bool.false_eq_true, if_false]
    exact ih h.2

theorem mainRoute_of_any_true (allRules : List ProxyRule) (proxies : ProxyCache)
    (path : String) (rem : List ProxyRule)
    (h : rem.any (fun r => r.PathPrefix != "" && hasPre r.PathPrefix path) = true) :
    mainRoute allRules proxies path rem =
      (.proxy (ServeHTTP allRules proxies path).1, (ServeHTTP allRules proxies path).2) := by
  induction rem with
  | nil => simp at h
  | cons rule rest ih =>
    by_cases hg : (rule.PathPrefix != "" && hasPre rule.PathPrefix path) = true
    · simp [mainRoute, hg]
    · have hg' : (rule.PathPrefix != "" && hasPre rule.PathPrefix path) = false := by
        simpa using hg
      rw [List.any_cons, hg', Bool.false_or] at h
      simp only [mainRoute, hg', Bool.false_eq_true, if_false]
      exact ih h

theorem mainHandler_of_any_false (rules : List ProxyRule) (proxies : ProxyCache)
    (path : String)
    (h : rules.any (fun r => r.PathPrefix != "" && hasPre r.PathPrefix path) = false) :
    mainHandler rules proxies path = (.fileServer, proxies) :=
  mainRoute_of_any_false rules proxies path rules h

theorem mainHandler_of_any_true (rules : List ProxyRule) (proxies : ProxyCache)
    (path : String)
    (h : rules.any (fun r => r.PathPrefix != "" && hasPre r.PathPrefix path) = true) :
    mainHandler rules proxies path =
      (.proxy (ServeHTTP rules proxies path).1, (ServeHTTP rules proxies path).2) :=
  mainRoute_of_any_true rules proxies path rules h

theorem UpdateProxyRule_of_not_mem (rules : List ProxyRule) (id : String)
    (rule : ProxyRule) (h : ∀ r ∈ rules, r.ID ≠ id) :
    UpdateProxyRule rules id rule = (false, rules) := by
  induction rules with
  | nil => rfl
  | cons r rs ih =>
    have h0 : r.ID ≠ id := h r (List.mem_cons_self r rs)
    have ih' := ih (fun x hx => h x (List.mem_cons_of_mem _ hx))
    simp [UpdateProxyRule, h0, ih']

theorem DeleteProxyRule_of_not_mem (rules : List ProxyRule) (id : String)
    (h : ∀ r ∈ rules, r.ID ≠ id) :
    DeleteProxyRule rules id = (false, rules) := by
  induction rules with
  | nil => rfl
  | cons r rs ih =>
    have h0 : r.ID ≠ id := h r (List.mem_cons_self r rs)
    have ih' := ih (fun x hx => h x (List.mem_cons_of_mem _ hx))
    simp [DeleteProxyRule, h0, ih']

theorem normalizePre_ID (rule : ProxyRule) : (normalizePre rule).ID = rule.ID := by
  unfold normalizePre
  split <;> rfl

theorem UpdateProxyRule_found (id : String) (rule : ProxyRule)
    (rules : List ProxyRule) :
    ∀ (i : Nat) (r : ProxyRule), rules[i]? = some r → r.ID = id →
      (∀ j, j < i → ∀ r', rules[j]? = some r' → r'.ID ≠ id) →
      (UpdateProxyRule rules id rule).1 = true ∧
      (UpdateProxyRule rules id rule).2[i]? = some { rule with ID := id } ∧
      ∀ j, j ≠ i → (UpdateProxyRule rules id rule).2[j]? = rules[j]? := by
  induction rules with
  | nil => intro i r hi; simp at hi
  | cons a as ih =>
    intro i r hi hr hfirst
    cases i with
    | zero =>
      obtain rfl : a = r := by simpa using hi
      refine ⟨by simp [UpdateProxyRule, hr], by simp [UpdateProxyRule, hr], ?_⟩
      intro j hj
      cases j with
      | zero => exact absurd rfl hj
      | succ k => simp [UpdateProxyRule, hr]
    | succ i' =>
      have h0 : a.ID ≠ id := hfirst 0 (Nat.succ_pos i') a (by simp)
      have hi' : as[i']? = some r := by simpa using hi
      have hfirst' : ∀ j, j < i' → ∀ r', as[j]? = some r' → r'.ID ≠ id := by
        intro j hj r' hj'
        exact hfirst (j + 1) (Nat.succ_lt_succ hj) r' (by simpa using hj')
      obtain ⟨H1, H2, H3⟩ := ih i' r hi' hr hfirst'
      refine ⟨?_, ?_, ?_⟩
      · simp [UpdateProxyRule, h0, H1]
      · simp only [UpdateProxyRule, if_neg h0]
        simpa using H2
      · intro j hj
        cases j with
        | zero => simp [UpdateProxyRule, h0]
        | succ k =>
          have hk : k ≠ i' := fun hh => hj (by rw [hh])
          simp only [UpdateProxyRule, if_neg h0]
          simpa using H3 k hk

theorem adminExec_success_proxies (st : ServerState) (op : AdminOp)
    (res : AdminResult) (st' : ServerState)
    (h : adminExec st op = (res, st')) (hs : isMutationSuccess res = true) :
    st'.proxies = [] := by
  cases op with
  | add freshID rule =>
    simp only [adminExec, addProxy] at h
    repeat' split at h
    all_goals injection h with h1 h2
    all_goals subst h1
    all_goals subst h2
    all_goals first | rfl | simp [isMutationSuccess] at hs
  | update id rule =>
    simp only [adminExec, updateProxy] at h
    repeat' split at h
    all_goals injection h with h1 h2
    all_goals subst h1
    all_goals subst h2
    all_goals first | rfl | simp [isMutationSuccess] at hs
  | del id =>
    simp only [adminExec, deleteProxy] at h
    repeat' split at h
    all_goals injection h with h1 h2
    all_goals subst h1
    all_goals subst h2
    all_goals first | rfl | simp [isMutationSuccess] at hs

/-! Claim theorems. -/

/-- C1 counterexample: the claim says the shared endpoint forwards to the first
rule whose path prefix is a literal prefix of the request path, for every rule
list including ones with port-only rules carrying an empty path prefix. The
code disagrees on both readings of "literal prefix": with a single port-only
rule (whose empty prefix is a string prefix of "/foo") the claimed selected
rule exists but the request falls through to the file server; and with the
list [portRuleY, ruleApi] and path "/api/users" the first rule with a matching
non-empty prefix is ruleApi (target http://b), yet the code forwards to the
port-only rule's target http://y, because main.go only checks for a non-empty
matching prefix while ProxyManager.ServeHTTP rescans the list without that
check. -/
theorem C1_counterexample :
    specFirstMatchRule [portRuleY] "/foo" = some portRuleY ∧
    mainHandler [portRuleY] [] "/foo" = (.fileServer, []) ∧
    List.find? (fun r => r.PathPrefix != "" && hasPre r.PathPrefix "/api/users")
        [portRuleY, ruleApi] = some ruleApi ∧
    mainHandler [portRuleY, ruleApi] [] "/api/users" =
      (.proxy (.proxied "http://y" "/api/users"), [("r1", "http://y")]) := by
  refine ⟨by decide, by decide, by decide, by decide⟩

/-- C1 (amended): starting from an empty proxy cache, the shared endpoint
proxies a request iff some rule has a non-empty path prefix that is a literal
prefix of the path; the rule actually used is then the first rule in insertion
order whose path prefix — the empty prefix matching every path — prefixes the
path, and the request is forwarded to that rule's target (given a well-formed
target URL); with no matching non-empty prefix the request falls through to
file serving. -/
theorem C1_dispatch_first_match (rules : List ProxyRule) (path : String) :
    (rules.any (fun r => r.PathPrefix != "" && hasPre r.PathPrefix path) = false →
      mainHandler rules [] path = (.fileServer, [])) ∧
    (rules.any (fun r => r.PathPrefix != "" && hasPre r.PathPrefix path) = true →
      ∀ r₀, rules.find? (fun r => hasPre r.PathPrefix path) = some r₀ →
        containsCTLByte r₀.TargetURL = false →
        mainHandler rules [] path =
          (.proxy (.proxied r₀.TargetURL (forwardedPath r₀ path)),
           [(r₀.ID, r₀.TargetURL)])) := by
  constructor
  · intro h
    exact mainHandler_of_any_false rules [] path h
  · intro h r₀ hfind hurl
    rw [mainHandler_of_any_true rules [] path h,
        ServeHTTP_nil_cache rules path r₀ hfind hurl]

/-- C1 witness: two overlapping prefixes /ap and /api in insertion order;
the first match /ap wins for /api/users. -/
theorem C1_dispatch_first_match_witness :
    ([ruleAp, ruleApi].any (fun r => r.PathPrefix != "" && hasPre r.PathPrefix "/api/users")
      = true) ∧
    ([ruleAp, ruleApi].find? (fun r => hasPre r.PathPrefix "/api/users") = some ruleAp) ∧
    mainHandler [ruleAp, ruleApi] [] "/api/users" =
      (.proxy (.proxied "http://a" "/api/users"), [("a", "http://a")]) := by
  refine ⟨by decide, by decide, ?_⟩
  have h := (C1_dispatch_first_match [ruleAp, ruleApi] "/api/users").2
    (by decide) ruleAp (by decide) (by decide)
  rw [h]
  decide

/-- C2: every completed administrative add, update or delete leaves the proxy
cache empty (RefreshProxies runs before the handler responds), so the very
next matching request — path-based or port-based — is served by a proxy
constructed from the post-mutation rule: its current target URL and its
current strip behavior. -/
theorem C2_refresh_no_stale (st : ServerState) (op : AdminOp)
    (res : AdminResult) (st' : ServerState)
    (h : adminExec st op = (res, st')) (hs : isMutationSuccess res = true) :
    st'.proxies = [] ∧
    (∀ path r₀, st'.rules.find? (fun r => hasPre r.PathPrefix path) = some r₀ →
      containsCTLByte r₀.TargetURL = false →
      ServeHTTP st'.rules st'.proxies path =
        (.proxied r₀.TargetURL (forwardedPath r₀ path), [(r₀.ID, r₀.TargetURL)])) ∧
    (∀ path rule, containsCTLByte rule.TargetURL = false →
      ServePortProxy st'.proxies path rule =
        (.proxied rule.TargetURL path, [(rule.ID, rule.TargetURL)])) := by
  have hproxies : st'.proxies = [] := adminExec_success_proxies st op res st' h hs
  refine ⟨hproxies, ?_, ?_⟩
  · intro path r₀ hfind hurl
    rw [hproxies]
    exact ServeHTTP_nil_cache st'.rules path r₀ hfind hurl
  · intro path rule hurl
    rw [hproxies]
    exact ServePortProxy_nil_cache path rule hurl

/-- C2 witness: updating rule r1 from target http://old (whose proxy is
cached) to http://new with strip turned on; the cache is cleared and the next
request to /api/users is forwarded to http://new with path /users. -/
theorem C2_refresh_no_stale_witness :
    isMutationSuccess (adminExec staleState (.update "r1" newRuleBody)).1 = true ∧
    (adminExec staleState (.update "r1" newRuleBody)).2.proxies = [] ∧
    ServeHTTP (adminExec staleState (.update "r1" newRuleBody)).2.rules
        (adminExec staleState (.update "r1" newRuleBody)).2.proxies "/api/users" =
      (.proxied "http://new" "/users", [("r1", "http://new")]) := by
  have h := C2_refresh_no_stale staleState (.update "r1" newRuleBody)
    (adminExec staleState (.update "r1" newRuleBody)).1
    (adminExec staleState (.update "r1" newRuleBody)).2 rfl (by decide)
  refine ⟨by decide, h.1, ?_⟩
  have h2 := h.2.1 "/api/users"
    { ID := "r1", PathPrefix := "/api", Port := 0, TargetURL := "http://new",
      StripPrefix := true }
    (by decide) (by decide)
  rw [h2]
  decide

/-- C3: the code evaluated at the failing input. A fresh process starts with
an empty rule store, so startPortBasedProxies — run exactly once, at startup —
starts no listener; adding the rule with port 9000 afterwards stores the rule
and reports 201, but the listener set stays empty, so no dedicated listener
on port 9000 exists and requests to it are never forwarded. (Had a listener
existed, ServePortProxy would forward any path unchanged to http://y, as the
last conjunct shows.) -/
theorem C3_port_rule_gets_no_listener :
    startPortBasedProxies [] = [] ∧
    startupState.listeners = [] ∧
    processAdmin startupState (.add "p1" portRuleBody) =
      (.created { portRuleBody with ID := "p1" },
       { rules := [{ portRuleBody with ID := "p1" }], proxies := [], listeners := [] }) ∧
    ServePortProxy [] "/any/path" { portRuleBody with ID := "p1" } =
      (.proxied "http://y" "/any/path", [("p1", "http://y")]) := by
  refine ⟨by decide, by decide, by decide, by decide⟩

/-- C4: a burst of raw filesystem events (each event arriving within 500 ms of
its predecessor) yields exactly one coalesced notification, emitted 500 ms
after the last event with no intervening one; its content is the last event's
base file name, a space, and its classified kind (created checked first, then
removed, then renamed, defaulting to modified). -/
theorem C4_debounce_single_coalesced (events : List (Nat × FsEvent))
    (t : Nat) (e : FsEvent)
    (hlast : events.getLast? = some (t, e)) (hburst : isBurst events = true) :
    debounceEmits events = [(t + debounceDurationMs, eventMessage e)] := by
  induction events with
  | nil => simp at hlast
  | cons a rest ih =>
    cases rest with
    | nil =>
      obtain ⟨t₁, e₁⟩ := a
      have h : (t₁, e₁) = (t, e) := by simpa using hlast
      have ht : t₁ = t := congrArg Prod.fst h
      have he : e₁ = e := congrArg Prod.snd h
      subst ht
      subst he
      rfl
    | cons b rest2 =>
      obtain ⟨t₁, e₁⟩ := a
      obtain ⟨t₂, e₂⟩ := b
      have hb : (decide (t₂ < t₁ + debounceDurationMs)
          && isBurst ((t₂, e₂) :: rest2)) = true := hburst
      rw [Bool.and_eq_true] at hb
      have hlt : t₂ < t₁ + debounceDurationMs := of_decide_eq_true hb.1
      have hlast2 : ((t₂, e₂) :: rest2).getLast? = some (t, e) := by
        rw [List.getLast?_cons_cons] at hlast
        exact hlast
      simp only [debounceEmits, if_pos hlt]
      exact ih hlast2 hb.2

/-- C4 witness: three rapid events on distinct files; one message, 500 ms
after the last event, describing the last file. -/
theorem C4_debounce_single_coalesced_witness :
    isBurst burstEvents = true ∧
    burstEvents.getLast? = some (300, cEvent) ∧
    debounceEmits burstEvents = [(800, "c.txt modified")] := by
  refine ⟨by decide, by decide, ?_⟩
  have h := C4_debounce_single_coalesced burstEvents 300 cEvent (by decide) (by decide)
  rw [h]
  decide

/-- C5: BroadcastChange delivers to every registered subscriber by a
non-blocking enqueue (it is a total function on the registry): every
subscriber with room receives the message appended, and a subscriber whose
queue is full is skipped, leaving its queue unchanged; the registry size is
unchanged. -/
theorem C5_broadcast_skips_full (clients : List (List String)) (message : String) :
    (BroadcastChange clients message).length = clients.length ∧
    ∀ (i : Nat) (q : List String), clients[i]? = some q →
      (BroadcastChange clients message)[i]? =
        some (if q.length < clientChanCapacity then q ++ [message] else q) := by
  constructor
  · simp [BroadcastChange]
  · intro i q hq
    simp [BroadcastChange, List.getElem?_map, hq, trySend]

/-- C5 witness: three subscribers, the first with a full queue; the full one
is skipped and the other two receive the message. -/
theorem C5_broadcast_skips_full_witness :
    fullQueue.length = clientChanCapacity ∧
    (BroadcastChange [fullQueue, [], ["a"]] "msg")[0]? = some fullQueue ∧
    (BroadcastChange [fullQueue, [], ["a"]] "msg")[1]? = some ["msg"] ∧
    (BroadcastChange [fullQueue, [], ["a"]] "msg")[2]? = some ["a", "msg"] := by
  refine ⟨by decide, ?_, ?_, ?_⟩
  · have h := (C5_broadcast_skips_full [fullQueue, [], ["a"]] "msg").2 0 fullQueue
      (by decide)
    rw [h]
    decide
  · have h := (C5_broadcast_skips_full [fullQueue, [], ["a"]] "msg").2 1 []
      (by decide)
    rw [h]
    decide
  · have h := (C5_broadcast_skips_full [fullQueue, [], ["a"]] "msg").2 2 ["a"]
      (by decide)
    rw [h]
    decide

/-- C6: a request matched by a rule with StripPrefix set is forwarded to the
rule's target with the matched prefix removed from the path ("/" when the
stripped path is empty); a request the prefix does not match falls through
past this rule to the file server. -/
theorem C6_strip_matched_path (rule : ProxyRule) (p q : String)
    (hm : hasPre rule.PathPrefix p = true)
    (hs : rule.StripPrefix = true)
    (hu : containsCTLByte rule.TargetURL = false)
    (hq : hasPre rule.PathPrefix q = false) :
    (ServeHTTP [rule] [] p).1 =
      .proxied rule.TargetURL
        (if String.mk (p.toList.drop rule.PathPrefix.toList.length) = "" then "/"
         else String.mk (p.toList.drop rule.PathPrefix.toList.length)) ∧
    mainHandler [rule] [] q = (.fileServer, []) := by
  constructor
  · have hfind : [rule].find? (fun r => hasPre r.PathPrefix p) = some rule := by
      simp [List.find?_cons, hm]
    rw [ServeHTTP_nil_cache [rule] p rule hfind hu]
    simp [forwardedPath, hs, trimPre, hm]
  · apply mainHandler_of_any_false
    simp [hq]

/-- C6 witness: the end-to-end scenario with prefix /api, target http://x and
strip on; /api/users goes to http://x with path /users, /other falls through. -/
theorem C6_strip_matched_path_witness :
    hasPre ruleApiStrip.PathPrefix "/api/users" = true ∧
    ruleApiStrip.StripPrefix = true ∧
    hasPre ruleApiStrip.PathPrefix "/other" = false ∧
    (ServeHTTP [ruleApiStrip] [] "/api/users").1 = .proxied "http://x" "/users" ∧
    mainHandler [ruleApiStrip] [] "/other" = (.fileServer, []) := by
  have h := C6_strip_matched_path ruleApiStrip "/api/users" "/other"
    (by decide) (by decide) (by decide) (by decide)
  refine ⟨by decide, by decide, by decide, ?_, h.2⟩
  rw [h.1]
  decide

/-- C7: when the first matching rule's target URL is malformed (url.Parse
fails on it) and no proxy is cached under that rule's ID, the request gets a
500 response, the cache is left exactly as it was (the failure is not
cached), and an identical subsequent request runs construction again with the
same outcome. -/
theorem C7_malformed_target_not_cached (rules : List ProxyRule)
    (proxies : ProxyCache) (path : String) (r₀ : ProxyRule)
    (hfind : rules.find? (fun r => hasPre r.PathPrefix path) = some r₀)
    (hmal : containsCTLByte r₀.TargetURL = true)
    (hnc : lookupProxy proxies r₀.ID = none) :
    ServeHTTP rules proxies path = (.errorResponse 500, proxies) ∧
    ServeHTTP rules (ServeHTTP rules proxies path).2 path =
      (.errorResponse 500, proxies) := by
  have hfail : (getOrCreateProxy proxies r₀).1 = none := by
    simp [getOrCreateProxy, hnc, hmal]
  have h2 : (getOrCreateProxy proxies r₀).2 = proxies := by
    simp [getOrCreateProxy, hnc, hmal]
  have H := ServeHTTP_find_fail rules proxies path r₀ hfind hfail
  rw [h2] at H
  refine ⟨H, ?_⟩
  rw [H]
  exact H

/-- C7 witness: a rule whose target URL carries a control byte; the request
and its retry both get 500 and the cache stays empty. -/
theorem C7_malformed_target_not_cached_witness :
    containsCTLByte ruleBadTarget.TargetURL = true ∧
    ServeHTTP [ruleBadTarget] [] "/api/z" = (.errorResponse 500, []) ∧
    ServeHTTP [ruleBadTarget] (ServeHTTP [ruleBadTarget] [] "/api/z").2 "/api/z" =
      (.errorResponse 500, []) := by
  have h := C7_malformed_target_not_cached [ruleBadTarget] [] "/api/z" ruleBadTarget
    (by decide) (by decide) (by decide)
  exact ⟨by decide, h.1, h.2⟩

/-- C8: mutating an identifier not present in the rule store is a "not found"
signal, not an exception: UpdateProxyRule and DeleteProxyRule return false and
leave the stored list unchanged, for every submitted rule value; the admin
handlers map this to a 404 response with the whole server state untouched
(for update, given a body that passes validation and so reaches the store). -/
theorem C8_unknown_id_not_found (st : ServerState) (id : String) (rule : ProxyRule)
    (h : ∀ r ∈ st.rules, r.ID ≠ id)
    (hv1 : (rule.PathPrefix == "" && rule.Port == 0) = false)
    (hv2 : (rule.TargetURL == "") = false) :
    UpdateProxyRule st.rules id rule = (false, st.rules) ∧
    DeleteProxyRule st.rules id = (false, st.rules) ∧
    updateProxy st id rule = (.notFound, st) ∧
    deleteProxy st id = (.notFound, st) := by
  have hu := UpdateProxyRule_of_not_mem st.rules id rule h
  have hun := UpdateProxyRule_of_not_mem st.rules id (normalizePre rule) h
  have hd := DeleteProxyRule_of_not_mem st.rules id h
  refine ⟨hu, hd, ?_, ?_⟩
  · simp [updateProxy, hv1, hv2, hun]
  · simp [deleteProxy, hd]

/-- C8 witness: the identifier zz is not stored; update and delete report
not-found and the state is unchanged. -/
theorem C8_unknown_id_not_found_witness :
    (∀ r ∈ staleState.rules, r.ID ≠ "zz") ∧
    UpdateProxyRule staleState.rules "zz" newRuleBody = (false, staleState.rules) ∧
    updateProxy staleState "zz" newRuleBody = (.notFound, staleState) ∧
    deleteProxy staleState "zz" = (.notFound, staleState) := by
  have h := C8_unknown_id_not_found staleState "zz" newRuleBody
    (by decide) (by decide) (by decide)
  exact ⟨by decide, h.1, h.2.2.1, h.2.2.2⟩

/-- C9: the rule identifier is immutable across update — when the store holds
a rule with the requested id at position i (and no earlier position), the
update stores the submitted rule with its ID forced to id at exactly that
position, every other position unchanged — and the administrative add assigns
the fresh identifier when the submitted body carries none. -/
theorem C9_id_immutable (rules : List ProxyRule) (id : String) (rule : ProxyRule)
    (i : Nat) (r : ProxyRule)
    (hi : rules[i]? = some r) (hr : r.ID = id)
    (hfirst : ∀ j, j < i → ∀ r', rules[j]? = some r' → r'.ID ≠ id)
    (st : ServerState) (freshID : String) (body : ProxyRule)
    (hbody : body.ID = "")
    (hv1 : (body.PathPrefix == "" && body.Port == 0) = false)
    (hv2 : (body.TargetURL == "") = false) :
    (UpdateProxyRule rules id rule).1 = true ∧
    (UpdateProxyRule rules id rule).2[i]? = some { rule with ID := id } ∧
    (∀ j, j ≠ i → (UpdateProxyRule rules id rule).2[j]? = rules[j]?) ∧
    (addProxy st freshID body).1 = .created (normalizePre { body with ID := freshID }) ∧
    (normalizePre { body with ID := freshID }).ID = freshID ∧
    (addProxy st freshID body).2.rules =
      st.rules ++ [normalizePre { body with ID := freshID }] := by
  obtain ⟨H1, H2, H3⟩ := UpdateProxyRule_found id rule rules i r hi hr hfirst
  have hb : (body.ID == "") = true := by simp [hbody]
  refine ⟨H1, H2, H3, ?_, ?_, ?_⟩
  · simp [addProxy, hb, hv1, hv2]
  · rw [normalizePre_ID]
  · simp [addProxy, hb, hv1, hv2, AddProxyRule]

/-- C9 witness: updating r1 with a body carrying ID bodyid stores the body
under ID r1; adding a body with empty ID stores it under the fresh ID f1. -/
theorem C9_id_immutable_witness :
    (UpdateProxyRule [oldRule] "r1" bodyDifferentID).2[0]? =
      some { bodyDifferentID with ID := "r1" } ∧
    (addProxy { rules := [], proxies := [] } "f1" newRuleBody).1 =
      .created { newRuleBody with ID := "f1" } ∧
    (addProxy { rules := [], proxies := [] } "f1" newRuleBody).2.rules =
      [{ newRuleBody with ID := "f1" }] := by
  have h := C9_id_immutable [oldRule] "r1" bodyDifferentID 0 oldRule
    (by decide) (by decide) (by decide)
    { rules := [], proxies := [] } "f1" newRuleBody
    (by decide) (by decide) (by decide)
  refine ⟨h.2.1, ?_, ?_⟩
  · rw [h.2.2.2.1]
    decide
  · rw [h.2.2.2.2.2]
    decide

/-- C10 (implicit): a successful administrative update responds 200 with the
decoded, normalized request body unchanged — in particular the body's own ID
field, which may be empty or differ from the path identifier — while the rule
actually stored at the matched position carries the path identifier. -/
theorem C10_update_echoes_body (st : ServerState) (id : String) (body : ProxyRule)
    (i : Nat) (r : ProxyRule)
    (hi : st.rules[i]? = some r) (hr : r.ID = id)
    (hfirst : ∀ j, j < i → ∀ r', st.rules[j]? = some r' → r'.ID ≠ id)
    (hv1 : (body.PathPrefix == "" && body.Port == 0) = false)
    (hv2 : (body.TargetURL == "") = false) :
    (updateProxy st id body).1 = .ok (normalizePre body) ∧
    (normalizePre body).ID = body.ID ∧
    (updateProxy st id body).2.rules[i]? =
      some { normalizePre body with ID := id } := by
  obtain ⟨H1, H2, H3⟩ :=
    UpdateProxyRule_found id (normalizePre body) st.rules i r hi hr hfirst
  refine ⟨?_, normalizePre_ID body, ?_⟩
  · simp [updateProxy, hv1, hv2, H1]
  · simp only [updateProxy, hv1, hv2, Bool.false_eq_true, if_false, H1, if_true]
    exact H2

/-- C10 witness: the body carries ID bodyid while the path identifier is r1;
the response echoes bodyid, the store holds the rule under r1. -/
theorem C10_update_echoes_body_witness :
    (updateProxy staleState "r1" bodyDifferentID).1 = .ok bodyDifferentID ∧
    bodyDifferentID.ID = "bodyid" ∧
    (updateProxy staleState "r1" bodyDifferentID).2.rules[0]? =
      some { bodyDifferentID with ID := "r1" } := by
  have h := C10_update_echoes_body staleState "r1" bodyDifferentID 0 oldRule
    (by decide) (by decide) (by decide) (by decide) (by decide)
  refine ⟨?_, by decide, ?_⟩
  · rw [h.1]
    decide
  · rw [h.2.2]
    decide
